import Mathlib

/-!
Verification development for the splitbills repository.

The code under verification lives in app/amount.py, app/session.py and
app/main.py. The definitions below are a shallow embedding of that code:

* Python Decimal values are modelled as rationals. The default decimal
  context of the program is modelled where it is observable: the division
  of split_per_person rounds the exact quotient to the 28 significant
  digits of the context precision with the default rounding half to even,
  and the quantize call raises InvalidOperation when the coefficient of
  its result needs more than 28 digits.
* Python datetime instants are modelled as natural-number time stamps and
  the timedelta TTL as a natural number, with elapsed time computed by
  truncated subtraction.
* The regular-expression scan of re.finditer over the amount pattern of
  amount.py is modelled by a direct functional transcription of the
  pattern, which is deterministic for this pattern: each alternative is
  built from greedy pieces whose continuations are all optional, so the
  backtracking engine never revisits a choice, and the first alternative
  is preferred at every match position exactly as in the source.
-/

namespace Splitbills

/-! ## Character classes of the pattern in amount.py -/

/-- Test transcribing the regex class for a decimal digit; the inputs of the
claims are ASCII, and the model fixes the digit class to ASCII digits. -/
def isDig (c : Char) : Bool := '0' ≤ c && c ≤ '9'

/-- Test transcribing the regex whitespace class as used inside the pattern
of amount.py, restricted to the ASCII whitespace characters. -/
def isWsp (c : Char) : Bool :=
  c = ' ' || c = '\t' || c = '\n' || c = '\r' || c = '\x0b' || c = '\x0c'

/-- Test for the regex class of a thousands-group separator in the pattern. -/
def isGroupSep (c : Char) : Bool := c = ',' || c = '.' || isWsp c

/-- Test for the regex class of a fraction separator in the pattern. -/
def isFracSep (c : Char) : Bool := c = '.' || c = ','

/-- Numeric value of a list of ASCII digit characters, most significant
digit first. -/
def digitsVal (l : List Char) : Nat :=
  l.foldl (fun a c => 10 * a + (c.toNat - '0'.toNat)) 0

/-- Modelled Python Decimal string constructor, on the fragment of its
grammar that the claims exercise: strings made of ASCII digits and at
most one dot, containing at least one digit. Other strings of the token
alphabet, for example strings with an interior separator left over or
with no digit at all, are rejected exactly as the Decimal constructor
rejects them; on the parse_numeric paths the normalized input always
lies in this fragment. On the postback path the payload is arbitrary and
the real constructor also accepts sign, exponent and surrounding
whitespace forms that this model rejects; no claim under scrutiny
depends on such payloads. -/
def pyDecimal (s : List Char) : Option ℚ :=
  if (s.all fun c => isDig c || c = '.') && s.count '.' ≤ 1 && s.any isDig then
    let ip := s.takeWhile (· ≠ '.')
    let fp := (s.dropWhile (· ≠ '.')).drop 1
    some (mkRat (digitsVal ip * 10 ^ fp.length + digitsVal fp) (10 ^ fp.length))
  else
    none

/-! ## The token scan of extract_amount_candidates

The pattern of amount.py, line 27, is
  (\d{1,3}(?:[,.\s]\d{3})*(?:[.,]\d{1,2})?|\d+(?:[.,]\d{1,2})?)
scanned with re.finditer. Each helper below transcribes one piece and
returns the pair of the consumed characters and the remaining input. -/

/-- Greedy split of the maximal leading digit run from the rest. -/
def splitDigits (cs : List Char) : List Char × List Char :=
  (cs.takeWhile isDig, cs.dropWhile isDig)

/-- Greedy transcription of the starred group of the pattern: each
repetition consumes one separator of the group class followed by exactly
three digits. -/
def starGroups : List Char → List Char × List Char
  | s :: d1 :: d2 :: d3 :: rest =>
    if isGroupSep s && isDig d1 && isDig d2 && isDig d3 then
      let (g, r) := starGroups rest
      (s :: d1 :: d2 :: d3 :: g, r)
    else
      ([], s :: d1 :: d2 :: d3 :: rest)
  | l => ([], l)

/-- Greedy transcription of the optional fraction of the pattern: one
fraction separator followed by one or two digits, two preferred. -/
def optFrac : List Char → List Char × List Char
  | s :: d1 :: d2 :: rest =>
    if isFracSep s && isDig d1 then
      if isDig d2 then ([s, d1, d2], rest) else ([s, d1], d2 :: rest)
    else
      ([], s :: d1 :: d2 :: rest)
  | [s, d1] =>
    if isFracSep s && isDig d1 then ([s, d1], []) else ([], [s, d1])
  | l => ([], l)

/-- First alternative of the pattern: one to three leading digits, then
the starred separator-plus-three-digit groups, then the optional fraction. -/
def matchAlt1 (cs : List Char) : Option (List Char × List Char) :=
  let (ds, rest) := splitDigits cs
  if ds = [] then none
  else
    let lead := ds.take 3
    let rest1 := ds.drop 3 ++ rest
    let (grp, rest2) := starGroups rest1
    let (frac, rest3) := optFrac rest2
    some (lead ++ grp ++ frac, rest3)

/-- Second alternative of the pattern: a full digit run, then the optional
fraction. -/
def matchAlt2 (cs : List Char) : Option (List Char × List Char) :=
  let (ds, rest) := splitDigits cs
  if ds = [] then none
  else
    let (frac, rest1) := optFrac rest
    some (ds ++ frac, rest1)

/-- One match attempt at the current position, first alternative preferred
as the backtracking engine of re prefers it. -/
def matchToken (cs : List Char) : Option (List Char × List Char) :=
  (matchAlt1 cs).orElse fun _ => matchAlt2 cs

/-- Fuel-indexed scan of re.finditer over the pattern: at each position the
engine attempts a match, emits the matched token and resumes right after
it, or advances one character when no match starts here. The fuel only
serves structural termination; every step shortens the input by at least
one character, as matchToken_spec shows, so a fuel equal to the input
length never runs out. -/
def tokensAux (fuel : ℕ) (l : List Char) : List (List Char) :=
  match fuel, l with
  | 0, _ => []
  | _ + 1, [] => []
  | f + 1, c :: cs =>
    match matchToken (c :: cs) with
    | some (tok, rest) => tok :: tokensAux f rest
    | none => tokensAux f cs

/-- The scan of re.finditer over the pattern of amount.py. -/
def tokens (l : List Char) : List (List Char) := tokensAux l.length l

/-! ## parse_numeric of amount.py -/

/-- Transcription of Python str.rfind for a single character: the index of
the last occurrence, or minus one when absent. -/
def rfind (c : Char) : List Char → ℤ
  | [] => -1
  | a :: as =>
    let r := rfind c as
    if 0 ≤ r then r + 1 else if a = c then 0 else -1

/-- Map used for the replacement of the comma by a dot. -/
def commaToDot (c : Char) : Char := if c = ',' then '.' else c

/-- Transcription of the space removal token.replace of amount.py line 63. -/
def despace (token : List Char) : List Char := token.filter (· ≠ ' ')

/-- The characters after the one comma of a token: the second part of the
Python split of the token at the comma, as read on amount.py lines 80 and
81 under the guard of exactly one comma. -/
def afterComma (t : List Char) : List Char := (t.dropWhile (· ≠ ',')).drop 1

/-- Transcription of parse_numeric of amount.py lines 47 to 116. Spaces are
removed first, then the branch is selected on the counts of dots and
commas; in the one-comma branch the characters after the comma decide the
reading, and in the mixed branch the last occurrences are compared as the
two rfind calls do. Any failure of the Decimal constructor yields the
empty list as the except clause of the source does. -/
def parse_numeric (token : List Char) : List ℚ :=
  if token = [] then []
  else if (despace token).count '.' = 0 ∧ (despace token).count ',' = 0 then
    (pyDecimal (despace token)).toList
  else if (despace token).count '.' = 1 ∧ (despace token).count ',' = 0 then
    (pyDecimal (despace token)).toList
  else if (despace token).count '.' = 0 ∧ (despace token).count ',' = 1 then
    if (afterComma (despace token)).length = 3 then
      (pyDecimal ((despace token).filter (· ≠ ','))).toList
    else
      (pyDecimal ((despace token).map commaToDot)).toList
  else if 0 < (despace token).count '.' ∧ 0 < (despace token).count ',' then
    if rfind ',' (despace token) < rfind '.' (despace token) then
      (pyDecimal ((despace token).filter (· ≠ ','))).toList
    else
      (pyDecimal (((despace token).filter (· ≠ '.')).map commaToDot)).toList
  else if 1 < (despace token).count '.' then
    (pyDecimal ((despace token).filter (· ≠ '.'))).toList
  else if 1 < (despace token).count ',' then
    (pyDecimal ((despace token).filter (· ≠ ','))).toList
  else []

/-! ## extract_amount_candidates of amount.py -/

/-- Range filter of amount.py line 37. -/
def inRange (v : ℚ) : Bool := decide ((1 : ℚ) ≤ v ∧ v ≤ 10000000)

/-- Transcription of extract_amount_candidates of amount.py lines 12 to 44.
The input is optional because the Python guard also accepts None; the
guard tests Python falsiness, which for a string is emptiness. The set of
candidates is modelled by deduplication by exact rational value, and the
final sorted call with reverse set is modelled by an insertion sort for
the reflexive descending order. -/
def extract_amount_candidates (ocr_text : Option (List Char)) : List ℚ :=
  match ocr_text with
  | none => []
  | some l =>
    if l = [] then []
    else
      List.insertionSort (· ≥ ·)
        ((((tokens l).flatMap parse_numeric).filter inRange).dedup)

/-! ## split_per_person of amount.py

The division of two Decimal values and the quantize call are modelled as
exact rational operations. The executable forms below build their results
with mkRat; the lemmas qdivInt_eq and qscale10_eq identify them with the
field operations of the rationals. -/

/-- Exact division of a rational by a nonzero integer, in executable form. -/
def qdivInt (a : ℚ) (b : ℤ) : ℚ :=
  if 0 ≤ b then mkRat a.num (a.den * b.toNat) else mkRat (-a.num) (a.den * (-b).toNat)

/-- Exact scaling of a rational by an integer power of ten, in executable
form. -/
def qscale10 (q : ℚ) (e : ℤ) : ℚ :=
  if 0 ≤ e then mkRat (q.num * 10 ^ e.toNat) q.den
  else mkRat q.num (q.den * 10 ^ (-e).toNat)

/-- Round-half-up of a nonnegative rational to an integer, as the
ROUND_HALF_UP mode of the decimal module rounds a nonnegative coefficient:
keep the integer part and increment it exactly when the dropped fraction
is at least one half. -/
def rhuNat (s : ℚ) : ℕ :=
  if s.den ≤ 2 * (s.num.toNat % s.den) then s.num.toNat / s.den + 1
  else s.num.toNat / s.den

/-- Round half to even of a nonnegative rational to an integer, the
default ROUND_HALF_EVEN mode of the decimal module that governs the
rounding of a division result: a dropped fraction below one half rounds
down, above one half rounds up, and exactly one half rounds to the even
neighbour. -/
def rheNat (s : ℚ) : ℕ :=
  if 2 * (s.num.toNat % s.den) < s.den then s.num.toNat / s.den
  else if s.den < 2 * (s.num.toNat % s.den) then s.num.toNat / s.den + 1
  else if s.num.toNat / s.den % 2 = 0 then s.num.toNat / s.den
  else s.num.toNat / s.den + 1

/-- Number of decimal digits of a natural number, with a fuel argument
for structural termination; the fuel n itself always suffices since the
digit count never exceeds the number. -/
def digits10Aux : ℕ → ℕ → ℕ
  | 0, _ => 1
  | fuel + 1, n => if n < 10 then 1 else digits10Aux fuel (n / 10) + 1

/-- Number of decimal digits of a natural number. -/
def digits10 (n : ℕ) : ℕ := digits10Aux n n

/-- The adjusted exponent of a positive rational: the integer e with ten
to the e at most the value, which is below ten to the e plus one. The
digit counts of numerator and denominator bracket e within one, and a
single comparison settles it. -/
def adjExp (q : ℚ) : ℤ :=
  let n := q.num.toNat
  let d := q.den
  let δ : ℤ := (digits10 n : ℤ) - (digits10 d : ℤ)
  if 0 ≤ δ then (if d * 10 ^ δ.toNat ≤ n then δ else δ - 1)
  else (if d ≤ n * 10 ^ (-δ).toNat then δ else δ - 1)

/-- Negation of a rational in executable form. -/
def negQ (q : ℚ) : ℚ := mkRat (-q.num) q.den

/-- Value of the division of decimals for a positive exact quotient p
under the default context of the decimal module: p correctly rounded to
28 significant digits with round half to even. The unit of the last of
the 28 significant places is ten to the adjusted exponent minus 27; when
p is a multiple of that unit, in particular whenever the exact quotient
has at most 28 significant digits, the division is exact. -/
def divDecPos (p : ℚ) : ℚ :=
  qscale10 (mkRat (rheNat (qscale10 p (-(adjExp p - 27))) : ℤ) 1) (adjExp p - 27)

/-- Transcription of the division total / Decimal(people) of amount.py
line 134 under the default decimal context: the exact quotient rounded,
when needed, to the 28 significant digits of the context precision with
the default rounding half to even; zero and sign are handled as in the
source. -/
def divDec (total : ℚ) (people : ℤ) : ℚ :=
  if (qdivInt total people).num = 0 then 0
  else if 0 ≤ (qdivInt total people).num then divDecPos (qdivInt total people)
  else negQ (divDecPos (negQ (qdivInt total people)))

/-- Transcription of the quantize call of amount.py line 138 with rounding
ROUND_HALF_UP and quantum ten to the minus scale: the scaled value is
rounded half up on its magnitude, the sign is restored, and the result is
scaled back. As in the decimal module, the call raises InvalidOperation
when the coefficient of the result needs more than the 28 digits of the
context precision. -/
def pyQuantize (q : ℚ) (scale : ℤ) : Except String ℚ :=
  if 0 ≤ (qscale10 q scale).num then
    if rhuNat (qscale10 q scale) < 10 ^ 28 then
      Except.ok (qscale10 (mkRat (rhuNat (qscale10 q scale) : ℤ) 1) (-scale))
    else Except.error "InvalidOperation"
  else
    if rhuNat (mkRat (-(qscale10 q scale).num) (qscale10 q scale).den) < 10 ^ 28 then
      Except.ok (qscale10 (mkRat (-(rhuNat (mkRat (-(qscale10 q scale).num)
        (qscale10 q scale).den) : ℤ)) 1) (-scale))
    else Except.error "InvalidOperation"

/-- Transcription of split_per_person of amount.py lines 119 to 140: a
nonpositive people count raises ValueError with the message below, and
otherwise the quotient under the default decimal context is quantized to
the requested scale with rounding half up, which raises InvalidOperation
when the result exceeds the context precision. -/
def split_per_person (total : ℚ) (people : ℤ) (scale : ℤ) : Except String ℚ :=
  if people ≤ 0 then Except.error "Number of people must be positive"
  else pyQuantize (divDec total people) scale

instance : DecidableEq (Except String ℚ) := fun a b =>
  match a, b with
  | Except.error x, Except.error y =>
    match decEq x y with
    | isTrue h => isTrue (by rw [h])
    | isFalse h => isFalse (by intro hh; exact h (Except.error.inj hh))
  | Except.ok x, Except.ok y =>
    match decEq x y with
    | isTrue h => isTrue (by rw [h])
    | isFalse h => isFalse (by intro hh; exact h (Except.ok.inj hh))
  | Except.error _, Except.ok _ => isFalse (by intro hh; exact Except.noConfusion hh)
  | Except.ok _, Except.error _ => isFalse (by intro hh; exact Except.noConfusion hh)

/-! ## SessionManager of session.py

Time stamps are natural numbers; datetime.now() becomes an explicit now
argument of each operation, and the timedelta TTL a natural number
compared against elapsed time by truncated subtraction, which agrees with
the signed comparison of the source whenever time moves forward. -/

/-- One record of the session dictionary of session.py lines 44 to 49. -/
structure SessionRecord where
  stage : String
  selected_amount : Option ℚ
  last_activity : ℕ
deriving DecidableEq

/-- The session store: the dictionary is modelled as a map from user
identifiers to optional records, together with the TTL. The lock of the
source serializes each operation; every operation below is one atomic
step. -/
structure SessionManager where
  sessions : String → Option SessionRecord
  ttl : ℕ

/-- A fresh manager with no sessions, TTL thirty time units as the default
of thirty minutes. -/
def mkMgr : SessionManager := { sessions := fun _ => none, ttl := 30 }

/-- Transcription of SessionManager.set_state of session.py lines 30 to 50:
upsert of the record for the user with the activity stamp set to now. -/
def set_state (m : SessionManager) (user_id : String) (stage : String)
    (selected_amount : Option ℚ) (now : ℕ) : SessionManager :=
  { m with sessions := fun v =>
      if v = user_id then
        some { stage := stage, selected_amount := selected_amount, last_activity := now }
      else m.sessions v }

/-- Transcription of SessionManager.get_state of session.py lines 52 to 80:
absent when no record exists; an expired record is deleted and absent is
returned; a live record has its activity stamp refreshed and only the
stage and the selected amount are returned. -/
def get_state (m : SessionManager) (user_id : String) (now : ℕ) :
    SessionManager × Option (String × Option ℚ) :=
  match m.sessions user_id with
  | none => (m, none)
  | some r =>
    if m.ttl < now - r.last_activity then
      ({ m with sessions := fun v => if v = user_id then none else m.sessions v }, none)
    else
      ({ m with sessions := fun v =>
          if v = user_id then some { r with last_activity := now } else m.sessions v },
       some (r.stage, r.selected_amount))

/-- Transcription of SessionManager.clear_state of session.py lines 82 to
92: remove the record if present. -/
def clear_state (m : SessionManager) (user_id : String) : SessionManager :=
  { m with sessions := fun v => if v = user_id then none else m.sessions v }

/-- Iterated reads: perform get_state at each listed instant in turn and
report whether every read returned a live session. -/
def getChain (m : SessionManager) (user_id : String) : List ℕ → SessionManager × Bool
  | [] => (m, true)
  | t :: ts =>
    match get_state m user_id t with
    | (m1, some _) => getChain m1 user_id ts
    | (m1, none) => (m1, false)

/-- Outbound message intents of the handlers of main.py. The crash intent
marks a path on which the Python handler raises instead of replying, as
an InvalidOperation escaping from quantize does: no message is sent and
the store keeps the changes already made before the raise. -/
inductive Outbound where
  | plainText (msg : String)
  | amountPrompt (amount : ℚ)
  | resultText (total : ℚ) (people : ℤ) (perPerson : ℚ)
  | crash
deriving DecidableEq

/-- Transcription of the Python str.strip call: remove leading and
trailing whitespace. -/
def pyStrip (l : List Char) : List Char :=
  ((l.dropWhile isWsp).reverse.dropWhile isWsp).reverse

/-- Test for the digit part of the Python int grammar: at least one
digit, with single underscores allowed only between two digits. -/
def digitsUnd : List Char → Bool
  | [] => false
  | [c] => isDig c
  | c :: d :: rest =>
    if isDig c then
      if d = '_' then digitsUnd rest else digitsUnd (d :: rest)
    else false

/-- Value of a text as accepted by the Python int constructor after
stripping: an optional sign followed by digits with single underscores
between digits, so int of the text 1_000 is 1000. The model covers the
ASCII fragment of the grammar; the inputs of the claims are ASCII. -/
def pyInt (s : List Char) : Option ℤ :=
  match s with
  | '+' :: ds => if digitsUnd ds then some (digitsVal (ds.filter (· ≠ '_')) : ℤ) else none
  | '-' :: ds => if digitsUnd ds then some (-(digitsVal (ds.filter (· ≠ '_')) : ℤ)) else none
  | ds => if digitsUnd ds then some (digitsVal (ds.filter (· ≠ '_')) : ℤ) else none

/-- Test transcribing data.startswith of main.py line 171 for the literal
amount= marker. -/
def startsWithAmountEq : List Char → Bool
  | 'a' :: 'm' :: 'o' :: 'u' :: 'n' :: 't' :: '=' :: _ => true
  | _ => false

/-- The second part of the Python split of the payload at the equals sign:
the characters after the first equals sign and before the next one. -/
def payloadAfterEq (data : List Char) : List Char :=
  ((data.dropWhile (· ≠ '=')).drop 1).takeWhile (· ≠ '=')

/-- Transcription of handle_postback of main.py lines 164 to 186: payloads
that do not carry the amount= marker are ignored without a reply and
without touching the store; with the marker, a payload the Decimal
constructor rejects yields the failure text, and an accepted amount moves
the session of the user to awaiting_people with that amount and prompts
for the people count. -/
def handle_postback (m : SessionManager) (user_id : String) (data : List Char)
    (now : ℕ) : SessionManager × Option Outbound :=
  if startsWithAmountEq data then
    match pyDecimal (payloadAfterEq data) with
    | none => (m, some (Outbound.plainText "Failed to process amount."))
    | some amount =>
      (set_state m user_id "awaiting_people" (some amount) now,
       some (Outbound.amountPrompt amount))
  else (m, none)

/-- Transcription of handle_text_message of main.py lines 189 to 233: read
the session; when absent or not in the awaiting_people stage, prompt for a
receipt image; otherwise a text that is not a positive integer yields the
validation prompt, and a positive integer yields the split result and
clears the session. -/
def handle_text_message (m : SessionManager) (user_id : String) (text : List Char)
    (now : ℕ) : SessionManager × Outbound :=
  match get_state m user_id now with
  | (m1, none) => (m1, Outbound.plainText "Please send a receipt image.")
  | (m1, some st) =>
    if st.1 ≠ "awaiting_people" then
      (m1, Outbound.plainText "Please send a receipt image.")
    else
      match pyInt (pyStrip text) with
      | none => (m1, Outbound.plainText "Please enter a valid number (e.g. 3)")
      | some people =>
        if people ≤ 0 then
          (m1, Outbound.plainText "Please enter a valid number (e.g. 3)")
        else
          match st.2 with
          | none => (m1, Outbound.crash)
          | some total =>
            match split_per_person total people 2 with
            | Except.ok per => (clear_state m1 user_id, Outbound.resultText total people per)
            | Except.error _ => (m1, Outbound.crash)

/-! ## Claim theorems -/

/-- The manager state after the image handler of main.py line 142 stored
the awaiting_amount marker for user U at instant zero. -/
def mgrAfterImage : SessionManager := set_state mkMgr "U" "awaiting_amount" none 0

/-- The consumed part and the rest of starGroups recompose the input. -/
theorem starGroups_append (l : List Char) :
    (starGroups l).1 ++ (starGroups l).2 = l := by
  match l with
  | s :: d1 :: d2 :: d3 :: rest =>
    rw [starGroups]
    by_cases h : (isGroupSep s && isDig d1 && isDig d2 && isDig d3) = true
    · simp only [h, if_true]
      have ih := starGroups_append rest
      simp only [List.cons_append]
      rw [ih]
    · simp only [h]
      simp
  | [] => rfl
  | [a] => rfl
  | [a, b] => rfl
  | [a, b, c] => rfl

theorem optFrac_append (l : List Char) :
    (optFrac l).1 ++ (optFrac l).2 = l := by
  match l with
  | s :: d1 :: d2 :: rest =>
    rw [optFrac]
    by_cases h : (isFracSep s && isDig d1) = true
    · simp only [h, if_true]
      by_cases h2 : isDig d2 = true <;> simp [h2]
    · simp [h]
  | [s, d1] =>
    rw [optFrac]
    by_cases h : (isFracSep s && isDig d1) = true <;> simp [h]
  | [] => rfl
  | [a] => rfl

theorem matchAlt1_spec (cs : List Char) (tok rest : List Char)
    (h : matchAlt1 cs = some (tok, rest)) : tok ++ rest = cs ∧ tok ≠ [] := by
  unfold matchAlt1 splitDigits at h
  simp only at h
  split at h
  case isTrue => exact absurd h (by simp)
  case isFalse hNil =>
    rw [Option.some.injEq, Prod.mk.injEq] at h
    obtain ⟨htok, hrest⟩ := h
    set ds := cs.takeWhile isDig with hds
    constructor
    · subst htok hrest
      have h1 := starGroups_append (ds.drop 3 ++ cs.dropWhile isDig)
      have h2 := optFrac_append (starGroups (ds.drop 3 ++ cs.dropWhile isDig)).2
      calc (ds.take 3 ++ (starGroups (ds.drop 3 ++ cs.dropWhile isDig)).1 ++
              (optFrac (starGroups (ds.drop 3 ++ cs.dropWhile isDig)).2).1) ++
              (optFrac (starGroups (ds.drop 3 ++ cs.dropWhile isDig)).2).2
          = ds.take 3 ++ ((starGroups (ds.drop 3 ++ cs.dropWhile isDig)).1 ++
              ((optFrac (starGroups (ds.drop 3 ++ cs.dropWhile isDig)).2).1 ++
               (optFrac (starGroups (ds.drop 3 ++ cs.dropWhile isDig)).2).2)) := by
            simp [List.append_assoc]
        _ = ds.take 3 ++ ((starGroups (ds.drop 3 ++ cs.dropWhile isDig)).1 ++
              (starGroups (ds.drop 3 ++ cs.dropWhile isDig)).2) := by rw [h2]
        _ = ds.take 3 ++ (ds.drop 3 ++ cs.dropWhile isDig) := by rw [h1]
        _ = (ds.take 3 ++ ds.drop 3) ++ cs.dropWhile isDig := by
            rw [List.append_assoc]
        _ = ds ++ cs.dropWhile isDig := by rw [List.take_append_drop]
        _ = cs := by rw [hds]; exact List.takeWhile_append_dropWhile isDig cs
    · subst htok
      intro hcon
      rcases List.append_eq_nil.mp hcon with ⟨hl, _⟩
      rcases List.append_eq_nil.mp hl with ⟨hl2, _⟩
      exact hNil (by simpa using List.take_eq_nil_iff.mp hl2)

theorem matchAlt2_spec (cs : List Char) (tok rest : List Char)
    (h : matchAlt2 cs = some (tok, rest)) : tok ++ rest = cs ∧ tok ≠ [] := by
  unfold matchAlt2 splitDigits at h
  simp only at h
  split at h
  case isTrue => exact absurd h (by simp)
  case isFalse hNil =>
    rw [Option.some.injEq, Prod.mk.injEq] at h
    obtain ⟨htok, hrest⟩ := h
    set ds := cs.takeWhile isDig with hds
    constructor
    · subst htok hrest
      have h2 := optFrac_append (cs.dropWhile isDig)
      calc (ds ++ (optFrac (cs.dropWhile isDig)).1) ++ (optFrac (cs.dropWhile isDig)).2
          = ds ++ ((optFrac (cs.dropWhile isDig)).1 ++ (optFrac (cs.dropWhile isDig)).2) := by
            simp [List.append_assoc]
        _ = ds ++ cs.dropWhile isDig := by rw [h2]
        _ = cs := by rw [hds]; exact List.takeWhile_append_dropWhile isDig cs
    · subst htok
      intro hcon
      exact hNil (List.append_eq_nil.mp hcon).1

theorem matchToken_spec (cs : List Char) (tok rest : List Char)
    (h : matchToken cs = some (tok, rest)) : tok ++ rest = cs ∧ tok ≠ [] := by
  unfold matchToken at h
  cases h1 : matchAlt1 cs with
  | some p =>
    rw [h1] at h
    simp only [Option.orElse] at h
    cases h
    exact matchAlt1_spec cs tok rest (by rw [h1])
  | none =>
    rw [h1] at h
    simp only [Option.orElse] at h
    exact matchAlt2_spec cs tok rest h

example : tokens "1500".data = ["150".data, "0".data] := by decide
example : tokens "999999999".data = ["999".data, "999".data, "999".data] := by decide
example : tokens "Total 1,234 Tax 56".data = ["1,234".data, "56".data] := by decide
example : parse_numeric "1,234".data = [1234] := by decide
example : parse_numeric "12,34".data = [mkRat 1234 100] := by decide
example : parse_numeric "1.234,56".data = [mkRat 123456 100] := by decide
example : parse_numeric "1,234.56".data = [mkRat 123456 100] := by decide
example : extract_amount_candidates (some "1500".data) = [150] := by decide
example : extract_amount_candidates (some "999999999".data) = [999] := by decide
example : extract_amount_candidates (some "Total 1,234 Tax 56".data) = [1234, 56] := by
  decide

example : split_per_person 100 3 2 = Except.ok (mkRat 3333 100) := by decide
example : split_per_person 10 4 2 = Except.ok (mkRat 250 100) := by decide
example : split_per_person 1234 3 2 = Except.ok (mkRat 41133 100) := by decide
example : split_per_person 1 8 2 = Except.ok (mkRat 13 100) := by decide
example : split_per_person 7 0 2 = Except.error "Number of people must be positive" := by
  decide

example :
    (handle_postback mkMgr "U" "amount=1234".data 0).2 = some (Outbound.amountPrompt 1234) := by
  decide
example :
    (handle_text_message (handle_postback mkMgr "U" "amount=1234".data 0).1 "U" "3".data 1).2
      = Outbound.resultText 1234 3 (mkRat 41133 100) := by decide
example :
    (get_state (handle_text_message (handle_postback mkMgr "U" "amount=1234".data 0).1
      "U" "3".data 1).1 "U" 2).2 = none := by decide
example : (handle_text_message mkMgr "U" "3".data 0).2
    = Outbound.plainText "Please send a receipt image." := by decide

/-! ## Arithmetic bridges between the executable forms and the field
operations of the rationals -/

/-- The executable division by an integer agrees with field division. -/
theorem qdivInt_eq (a : ℚ) (b : ℤ) : qdivInt a b = a / (b : ℚ) := by
  unfold qdivInt
  split
  case isTrue h =>
    have hb' : ((b.toNat : ℕ) : ℚ) = (b : ℚ) := by
      exact_mod_cast congrArg (fun z : ℤ => (z : ℚ)) (Int.toNat_of_nonneg h)
    rw [Rat.mkRat_eq_divInt, Rat.divInt_eq_div]
    push_cast
    rw [hb', ← div_div, Rat.num_div_den]
  case isFalse h =>
    have hb' : (((-b).toNat : ℕ) : ℚ) = -(b : ℚ) := by
      have := congrArg (fun z : ℤ => (z : ℚ)) (Int.toNat_of_nonneg (by omega : (0:ℤ) ≤ -b))
      push_cast at this ⊢
      linarith
    rw [Rat.mkRat_eq_divInt, Rat.divInt_eq_div]
    push_cast
    rw [hb', mul_neg, neg_div_neg_eq, ← div_div, Rat.num_div_den]

/-- A chain of reads, each within the TTL of the previous activity stamp,
always finds a live session. -/
theorem getChain_live (ts : List ℕ) : ∀ (m : SessionManager) (u : String)
    (r : SessionRecord), m.sessions u = some r →
    List.Chain (fun a b => b - a < m.ttl) r.last_activity ts →
    (getChain m u ts).2 = true := by
  induction ts with
  | nil =>
    intro m u r _ _
    rfl
  | cons t ts ih =>
    intro m u r hr hchain
    rw [List.chain_cons] at hchain
    obtain ⟨hrel, hchain⟩ := hchain
    rw [getChain]
    have hnot : ¬ m.ttl < t - r.last_activity := by omega
    have hget : get_state m u t =
        ({ m with sessions := fun v =>
            if v = u then some { r with last_activity := t } else m.sessions v },
         some (r.stage, r.selected_amount)) := by
      simp [get_state, hr, hnot]
    rw [hget]
    exact ih _ u { r with last_activity := t } (by simp) hchain

/-- After the one comma of a token no further comma occurs. -/
theorem afterComma_count (l : List Char) (h : l.count ',' = 1) :
    (afterComma l).count ',' = 0 := by
  induction l with
  | nil => simp at h
  | cons a l ih =>
    by_cases ha : a = ','
    · subst ha
      have hc : (',' :: l).count ',' = l.count ',' + 1 := by
        simp [List.count_cons]
      rw [hc] at h
      have : l.count ',' = 0 := by omega
      unfold afterComma
      rw [List.dropWhile_cons_of_neg (by simp)]
      simpa using this
    · have hc : (a :: l).count ',' = l.count ',' := by
        simp [List.count_cons, ha]
      rw [hc] at h
      unfold afterComma at ih ⊢
      rw [List.dropWhile_cons_of_pos (by simp [ha])]
      exact ih h

/-- Membership in the suffix after the comma implies membership in the
token. -/
theorem afterComma_subset (l : List Char) {c : Char} (hc : c ∈ afterComma l) :
    c ∈ l :=
  ((List.drop_sublist 1 (l.dropWhile (· ≠ ','))).trans
    (List.dropWhile_sublist (p := (· ≠ ',')))).subset hc

/-- C1: evaluation of the extractor at the failing inputs of the claim.
The first alternative of the pattern matches a bare three-digit lead of
any longer plain digit run, so the scan splits 1500 into the tokens 150
and 0 and yields the candidate 150 instead of 1500, and it splits the
nine-digit run into three tokens 999 whose value 999 passes the range
filter instead of being discarded. -/
theorem C1_extract_range_examples_fail :
    extract_amount_candidates (some "1500".data) = [150] ∧
    extract_amount_candidates (some "999999999".data) = [999] ∧
    ([150] : List ℚ) ≠ [1500] ∧ ([999] : List ℚ) ≠ [] := by
  exact ⟨by decide, by decide, by decide, by decide⟩

/-- C2 counterexample: the split of 100 among 3 at scale 2 is 33.33 and
not the 33.34 of the claim, because the dropped digits of 33.333... start
with a 3, which rounds down also under round-half-up. -/
theorem C2_counterexample :
    split_per_person 100 3 2 = Except.ok (mkRat 3333 100) ∧
    mkRat 3333 100 ≠ mkRat 3334 100 := by
  exact ⟨by decide, by decide⟩

/-- C2 amended: splitPerPerson(100, 3, 2) = 33.33 and
splitPerPerson(10, 4, 2) = 2.50. -/
theorem C2_amended_examples :
    split_per_person 100 3 2 = Except.ok (mkRat 3333 100) ∧
    split_per_person 10 4 2 = Except.ok (mkRat 250 100) := by
  exact ⟨by decide, by decide⟩

/-- C3 counterexample: in the end-to-end scenario of the claim, the
emitted per-person amount for the total 1234 split among 3 is 411.33 and
not the 411.34 of the claim. -/
theorem C3_counterexample :
    (handle_text_message (handle_postback mgrAfterImage "U" "amount=1234".data 1).1
        "U" "3".data 2).2
      = Outbound.resultText 1234 3 (mkRat 41133 100) ∧
    mkRat 41133 100 ≠ mkRat 41134 100 := by
  exact ⟨by decide, by decide⟩

/-- C3 amended: for the OCR text Total 1,234 Tax 56 the candidate list is
exactly [1234, 56] in that order; after the user selects 1234 the session
is in stage awaiting_people with selected amount 1234; after the user
sends the text 3 the emitted result has total 1234, people 3 and
per-person amount 411.33, and the session is cleared, so a subsequent
read for that user returns absent. -/
theorem C3_amended_end_to_end :
    extract_amount_candidates (some "Total 1,234 Tax 56".data) = [1234, 56] ∧
    (handle_postback mgrAfterImage "U" "amount=1234".data 1).2
      = some (Outbound.amountPrompt 1234) ∧
    (get_state (handle_postback mgrAfterImage "U" "amount=1234".data 1).1 "U" 1).2
      = some ("awaiting_people", some 1234) ∧
    (handle_text_message (handle_postback mgrAfterImage "U" "amount=1234".data 1).1
        "U" "3".data 2).2
      = Outbound.resultText 1234 3 (mkRat 41133 100) ∧
    (get_state (handle_text_message (handle_postback mgrAfterImage "U"
        "amount=1234".data 1).1 "U" "3".data 2).1 "U" 3).2 = none := by
  exact ⟨by decide, by decide, by decide, by decide, by decide⟩

/-- C4: separator disambiguation of the numeric token parser. For every
token over the token alphabet with no dot and exactly one comma, the
characters after the comma are all digits, and the comma is dropped as a
thousands separator exactly when three digits follow it, and otherwise
becomes the decimal point; for every token with at least one dot and at
least one comma, the separator whose last occurrence is rightmost is kept
as the decimal point while every occurrence of the other separator is
removed. The four examples of the claim evaluate accordingly, with
parse("1,234") = 1234, parse("12,34") = 12.34, parse("1.234,56") =
1234.56 and parse("1,234.56") = 1234.56. -/
theorem C4_separator_rules :
    (∀ t : List Char,
      (∀ c ∈ t, isDig c = true ∨ c = '.' ∨ c = ',' ∨ c = ' ') →
      (despace t).count '.' = 0 → (despace t).count ',' = 1 →
      ((afterComma (despace t)).length = 3 →
        parse_numeric t = (pyDecimal ((despace t).filter (· ≠ ','))).toList) ∧
      ((afterComma (despace t)).length ≠ 3 →
        parse_numeric t = (pyDecimal ((despace t).map commaToDot)).toList) ∧
      (afterComma (despace t)).all isDig = true) ∧
    (∀ t : List Char,
      0 < (despace t).count '.' → 0 < (despace t).count ',' →
      (rfind ',' (despace t) < rfind '.' (despace t) →
        parse_numeric t = (pyDecimal ((despace t).filter (· ≠ ','))).toList) ∧
      (rfind '.' (despace t) < rfind ',' (despace t) →
        parse_numeric t = (pyDecimal (((despace t).filter (· ≠ '.')).map commaToDot)).toList)) ∧
    parse_numeric "1,234".data = [1234] ∧
    parse_numeric "12,34".data = [mkRat 1234 100] ∧
    parse_numeric "1.234,56".data = [mkRat 123456 100] ∧
    parse_numeric "1,234.56".data = [mkRat 123456 100] := by
  refine ⟨?_, ?_, by decide, by decide, by decide, by decide⟩
  · intro t halpha h0 h1
    have htne : t ≠ [] := by
      intro he
      subst he
      simp [despace] at h1
    refine ⟨?_, ?_, ?_⟩
    · intro hlen
      rw [parse_numeric, if_neg htne,
        if_neg (by rintro ⟨-, hc⟩; omega),
        if_neg (by rintro ⟨hc, -⟩; omega),
        if_pos ⟨h0, h1⟩, if_pos hlen]
    · intro hlen
      rw [parse_numeric, if_neg htne,
        if_neg (by rintro ⟨-, hc⟩; omega),
        if_neg (by rintro ⟨hc, -⟩; omega),
        if_pos ⟨h0, h1⟩, if_neg hlen]
    · rw [List.all_eq_true]
      intro c hcmem
      have hmem1 : c ∈ despace t := afterComma_subset _ hcmem
      have hmem2 : c ∈ t := (List.filter_sublist _).subset hmem1
      have hnsp : c ≠ ' ' := by
        have := List.of_mem_filter hmem1
        simpa using this
      rcases halpha c hmem2 with hd | hdot | hcom | hsp
      · exact hd
      · exfalso
        subst hdot
        have : 0 < (despace t).count '.' := List.count_pos_iff.mpr hmem1
        omega
      · exfalso
        subst hcom
        have hz := afterComma_count (despace t) h1
        have : 0 < (afterComma (despace t)).count ',' := List.count_pos_iff.mpr hcmem
        omega
      · exact absurd hsp hnsp
  · intro t h0 h1
    have htne : t ≠ [] := by
      intro he
      subst he
      simp [despace] at h1
    refine ⟨?_, ?_⟩
    · intro hlt
      rw [parse_numeric, if_neg htne,
        if_neg (by rintro ⟨hc, -⟩; omega),
        if_neg (by rintro ⟨-, hc⟩; omega),
        if_neg (by rintro ⟨hc, -⟩; omega),
        if_pos ⟨h0, h1⟩, if_pos hlt]
    · intro hgt
      rw [parse_numeric, if_neg htne,
        if_neg (by rintro ⟨hc, -⟩; omega),
        if_neg (by rintro ⟨-, hc⟩; omega),
        if_neg (by rintro ⟨hc, -⟩; omega),
        if_pos ⟨h0, h1⟩, if_neg (by omega)]

/-- C4 witness: the rules applied at the concrete tokens 12,34 and
1,234.56 of the claim. -/
theorem C4_separator_rules_witness :
    parse_numeric "12,34".data
      = (pyDecimal ((despace "12,34".data).map commaToDot)).toList ∧
    parse_numeric "1,234.56".data
      = (pyDecimal ((despace "1,234.56".data).filter (· ≠ ','))).toList := by
  exact ⟨((C4_separator_rules.1 "12,34".data (by decide) (by decide) (by decide)).2.1
      (by decide)),
    ((C4_separator_rules.2.1 "1,234.56".data (by decide) (by decide)).1 (by decide))⟩

/-- C5: read semantics of the session store. A read returns absent when no
record exists; a read of a record whose elapsed time strictly exceeds the
TTL returns absent and evicts the record; a live read refreshes the
activity stamp to now and returns only the stage and the selected amount;
and a session written by set_state and then read repeatedly, each read
within less than the TTL of the previous activity, never expires. -/
theorem C5_get_state_semantics :
    (∀ (m : SessionManager) (u : String) (now : ℕ),
      m.sessions u = none → get_state m u now = (m, none)) ∧
    (∀ (m : SessionManager) (u : String) (now : ℕ) (r : SessionRecord),
      m.sessions u = some r → m.ttl < now - r.last_activity →
      (get_state m u now).2 = none ∧ ((get_state m u now).1).sessions u = none) ∧
    (∀ (m : SessionManager) (u : String) (now : ℕ) (r : SessionRecord),
      m.sessions u = some r → ¬ m.ttl < now - r.last_activity →
      get_state m u now =
        ({ m with sessions := fun v =>
            if v = u then some { r with last_activity := now } else m.sessions v },
         some (r.stage, r.selected_amount))) ∧
    (∀ (m : SessionManager) (u stage : String) (amt : Option ℚ) (t0 : ℕ) (ts : List ℕ),
      List.Chain (fun a b => b - a < m.ttl) t0 ts →
      (getChain (set_state m u stage amt t0) u ts).2 = true) := by
  refine ⟨?_, ?_, ?_, ?_⟩
  · intro m u now h
    simp [get_state, h]
  · intro m u now r hr hexp
    constructor
    · simp [get_state, hr, hexp]
    · simp [get_state, hr, hexp]
  · intro m u now r hr hlive
    simp [get_state, hr, hlive]
  · intro m u stage amt t0 ts hchain
    exact getChain_live ts _ u
      { stage := stage, selected_amount := amt, last_activity := t0 }
      (by simp [set_state]) hchain

/-- C5 witness: the four read rules at concrete stores and instants. -/
theorem C5_get_state_semantics_witness :
    get_state mkMgr "U" 5 = (mkMgr, none) ∧
    ((get_state (set_state mkMgr "U" "awaiting_people" (some 100) 0) "U" 31).2 = none ∧
      ((get_state (set_state mkMgr "U" "awaiting_people" (some 100) 0) "U" 31).1).sessions
        "U" = none) ∧
    get_state (set_state mkMgr "U" "awaiting_people" (some 100) 0) "U" 5 =
      ({ sessions := fun v =>
          if v = "U" then some ⟨"awaiting_people", some 100, 5⟩
          else (set_state mkMgr "U" "awaiting_people" (some 100) 0).sessions v,
         ttl := (set_state mkMgr "U" "awaiting_people" (some 100) 0).ttl },
       some ("awaiting_people", some 100)) ∧
    (getChain (set_state mkMgr "U" "awaiting_people" (some 100) 0) "U" [10, 20, 45]).2
      = true := by
  refine ⟨C5_get_state_semantics.1 mkMgr "U" 5 rfl,
    C5_get_state_semantics.2.1 (set_state mkMgr "U" "awaiting_people" (some 100) 0)
      "U" 31 { stage := "awaiting_people", selected_amount := some 100,
               last_activity := 0 } (by decide) (by decide),
    C5_get_state_semantics.2.2.1 (set_state mkMgr "U" "awaiting_people" (some 100) 0)
      "U" 5 { stage := "awaiting_people", selected_amount := some 100,
              last_activity := 0 } (by decide) (by decide),
    C5_get_state_semantics.2.2.2 mkMgr "U" "awaiting_people" (some 100) 0 [10, 20, 45]
      (List.Chain.cons (by decide) (List.Chain.cons (by decide)
        (List.Chain.cons (by decide) List.Chain.nil)))⟩

/-- C9: shape of the extractor output. For every input, the candidate list
is strictly descending by value, hence free of duplicates, and every
element lies in the inclusive range from 1 to 10000000; the absent input
and the empty text both yield the empty list rather than an error. -/
theorem C9_extract_output_invariant :
    (∀ ocr : Option (List Char),
      List.Pairwise (fun a b : ℚ => a > b) (extract_amount_candidates ocr) ∧
      (extract_amount_candidates ocr).Forall
        (fun v : ℚ => 1 ≤ v ∧ v ≤ 10000000)) ∧
    extract_amount_candidates none = [] ∧
    extract_amount_candidates (some []) = [] := by
  refine ⟨?_, rfl, rfl⟩
  intro ocr
  cases ocr with
  | none => exact ⟨List.Pairwise.nil, trivial⟩
  | some l =>
    by_cases hl : l = []
    · subst hl
      exact ⟨List.Pairwise.nil, trivial⟩
    · have hform : extract_amount_candidates (some l)
          = List.insertionSort (· ≥ ·)
              ((((tokens l).flatMap parse_numeric).filter inRange).dedup) := by
        simp [extract_amount_candidates, hl]
      constructor
      · rw [hform]
        have hsorted : List.Sorted (· ≥ ·) (List.insertionSort (· ≥ ·)
            ((((tokens l).flatMap parse_numeric).filter inRange).dedup)) :=
          List.sorted_insertionSort (· ≥ ·) _
        have hnodup : (List.insertionSort (· ≥ ·)
            ((((tokens l).flatMap parse_numeric).filter inRange).dedup)).Nodup :=
          (List.perm_insertionSort (· ≥ ·) _).nodup_iff.mpr (List.nodup_dedup _)
        exact (hsorted.and hnodup).imp fun hab =>
          lt_of_le_of_ne hab.1 (Ne.symm hab.2)
      · rw [hform, List.forall_iff_forall_mem]
        intro x hx
        have hx2 : x ∈ (((tokens l).flatMap parse_numeric).filter inRange).dedup :=
          (List.perm_insertionSort (· ≥ ·) _).subset hx
        have hx3 : x ∈ ((tokens l).flatMap parse_numeric).filter inRange :=
          (List.mem_dedup).mp hx2
        have hx4 : inRange x = true := (List.mem_filter.mp hx3).2
        exact of_decide_eq_true hx4

/-- C10: a postback whose payload does not carry the amount= marker
produces no outbound message and leaves the store untouched, and no
postback ever produces the generic receipt prompt, which belongs to the
text handler alone. -/
theorem C10_postback_frame :
    (∀ (m : SessionManager) (u : String) (data : List Char) (now : ℕ),
      startsWithAmountEq data = false → handle_postback m u data now = (m, none)) ∧
    (∀ (m : SessionManager) (u : String) (data : List Char) (now : ℕ)
      (out : Outbound), (handle_postback m u data now).2 = some out →
      out ≠ Outbound.plainText "Please send a receipt image.") := by
  constructor
  · intro m u data now h
    unfold handle_postback
    rw [h]
    rfl
  · intro m u data now out h
    unfold handle_postback at h
    by_cases hsw : startsWithAmountEq data
    · rw [if_pos hsw] at h
      cases hd : pyDecimal (payloadAfterEq data) with
      | none =>
        rw [hd] at h
        simp only [Option.some.injEq] at h
        subst h
        intro hcon
        exact absurd (Outbound.plainText.inj hcon) (by decide)
      | some amount =>
        rw [hd] at h
        simp only [Option.some.injEq] at h
        subst h
        intro hcon
        exact Outbound.noConfusion hcon
    · rw [if_neg hsw] at h
      simp at h

/-- C10 witness: a postback with payload people=3 is ignored, and the
failure reply of a malformed amount payload is not the receipt prompt. -/
theorem C10_postback_frame_witness :
    handle_postback mkMgr "U" "people=3".data 0 = (mkMgr, none) ∧
    Outbound.plainText "Failed to process amount."
      ≠ Outbound.plainText "Please send a receipt image." := by
  exact ⟨C10_postback_frame.1 mkMgr "U" "people=3".data 0 (by decide),
    C10_postback_frame.2 mkMgr "U" "amount=x".data 0
      (Outbound.plainText "Failed to process amount.") (by decide)⟩

end Splitbills
